import Mathlib

/-!
Verification development for the PubMed MCP server
(`pubmed_enhanced_mcp_server.py`).  The Python source is shallowly embedded:
pure string/XML manipulation becomes Lean functions over `List Char` and an
explicit XML tree type; the network transport is an explicit oracle argument;
Python exceptions become `Except`/`Option` results.
-/

namespace PubmedMCP

/-! ## String primitives (Python `str` operations on `List Char`) -/

/-- Whitespace test used by Python `str.strip()`, restricted to the ASCII
whitespace characters. -/
def isPySpace (c : Char) : Bool :=
  c = ' ' || c = '\t' || c = '\n' || c = '\r' || c = '\x0b' || c = '\x0c'

/-- Python `s.strip()`: drop leading and trailing whitespace. -/
def stripChars (l : List Char) : List Char :=
  ((l.dropWhile isPySpace).reverse.dropWhile isPySpace).reverse

/-- Helper for `splitLines`; `acc` holds the current segment reversed. -/
def splitLinesAux (acc : List Char) : List Char → List (List Char)
  | [] => [acc.reverse]
  | c :: rest =>
    if c = '\n' then acc.reverse :: splitLinesAux [] rest
    else splitLinesAux (c :: acc) rest

/-- Python `text.split('\n')`: split at every newline, keeping empty
segments (a trailing newline yields a final empty segment). -/
def splitLines (l : List Char) : List (List Char) := splitLinesAux [] l

/-! ## Term corpus parser (`parse_mesh_text_response`, lines 328-349) -/

/-- `re.match(r'^\d+:', line)`: a nonempty ASCII digit run followed by `:`.
(Python `\d` also matches non-ASCII decimal digits; the protocol text is
ASCII, so the model restricts to `Char.isDigit`.) -/
def isDelimLine (l : List Char) : Bool :=
  !(l.takeWhile Char.isDigit).isEmpty &&
    (match l.dropWhile Char.isDigit with
     | ':' :: _ => true
     | _ => false)

/-- `re.search(r'^\d+: (.+?)(?=\n|$)', entry)` followed by
`match.group(1).strip()`.  Without `re.MULTILINE` the `^` anchors only at
position 0, and `.` does not cross a newline, so the lazy group captures the
(nonempty) remainder of the first line after `"<digits>: "`. -/
def extractEntry (l : List Char) : Option (List Char) :=
  if (l.takeWhile Char.isDigit).isEmpty then none
  else
    match l.dropWhile Char.isDigit with
    | ':' :: ' ' :: rest =>
      if (rest.takeWhile (fun c => c ≠ '\n')).isEmpty then none
      else some (stripChars (rest.takeWhile (fun c => c ≠ '\n')))
    | _ => none

/-- The `if current_entry: ... entries.append(...)` flush step: a nonempty
accumulated entry is appended when the extraction regex matches, and silently
dropped otherwise. -/
def flushEntry (entries : List (List Char)) (current : List Char) :
    List (List Char) :=
  if current.isEmpty then entries
  else
    match extractEntry current with
    | some t => entries ++ [t]
    | none => entries

/-- The `for line in text.split('\n')` loop: a delimiter line flushes the
previous entry and starts a new one; any other line is appended (with its
newline) to the current entry.  The final entry is flushed after the scan. -/
def scanLines (entries : List (List Char)) (current : List Char) :
    List (List Char) → List (List Char)
  | [] => flushEntry entries current
  | line :: rest =>
    if isDelimLine line then scanLines (flushEntry entries current) line rest
    else scanLines entries (current ++ '\n' :: line) rest

/-- Core of `parse_mesh_text_response` on character lists. -/
def parseMeshCore (l : List Char) : List (List Char) :=
  scanLines [] [] (splitLines l)

/-- `parse_mesh_text_response(text)` (lines 328-349). -/
def parse_mesh_text_response (s : String) : List String :=
  (parseMeshCore s.toList).map fun l => String.mk l

/-! ## Re-rendering of a term list into numbered-entry form

This is the spec's "rendering the parser's output list back into
numbered-entry form (`1: e1\n2: e2\n...`)", used to state round-trip
stability.  It is not part of the Python source. -/

/-- Decimal digits of `n`, least significant first, with explicit fuel so the
recursion is structural (`fuel ≥ n` suffices). -/
def digitsRevFuel : Nat → Nat → List Char
  | 0, _ => []
  | _ + 1, 0 => []
  | fuel + 1, n + 1 =>
    Char.ofNat (48 + (n + 1) % 10) :: digitsRevFuel fuel ((n + 1) / 10)

/-- Decimal digits of `n`, least significant first (`n = 0` gives `[]`). -/
def digitsRev (n : Nat) : List Char := digitsRevFuel n n

/-- Decimal rendering of `n`, most significant digit first. -/
def natDigits (n : Nat) : List Char :=
  if n = 0 then ['0'] else (digitsRev n).reverse

/-- One rendered entry per term: `"<k>: <t>\n"`, numbering from `k`. -/
def renderFrom (k : Nat) : List (List Char) → List Char
  | [] => []
  | t :: rest => natDigits k ++ ':' :: ' ' :: t ++ '\n' :: renderFrom (k + 1) rest

/-- Numbered-entry rendering of a term list, numbering from 1. -/
def renderCore (ts : List (List Char)) : List Char := renderFrom 1 ts

/-- String-level rendering matching `renderCore`. -/
def renderTerms (ts : List String) : String :=
  String.mk (renderCore (ts.map String.toList))

/-- The lines of `renderFrom k ts` without their trailing newline. -/
def linesFrom (k : Nat) : List (List Char) → List (List Char)
  | [] => []
  | t :: rest => (natDigits k ++ ':' :: ' ' :: t) :: linesFrom (k + 1) rest

/-- Well-formedness of one rendered term: nonempty, already stripped, and
newline-free.  Every entry the term-corpus parser emits satisfies the last
two; nonemptiness is the well-formedness condition of round-trip claims. -/
def GoodTerm (t : List Char) : Prop :=
  t ≠ [] ∧ stripChars t = t ∧ '\n' ∉ t

/-! ## XML documents (`xml.etree.ElementTree` values)

An element has a tag, attributes, optional text (Python `Element.text`,
`None` when the element has no leading character data) and a list of child
elements. -/

inductive Xml where
  | elem (tag : String) (attrs : List (String × String)) (text : Option String)
      (children : List Xml)

/-- The element's tag. -/
def Xml.tag : Xml → String
  | .elem t _ _ _ => t

/-- The element's attribute list. -/
def Xml.attrs : Xml → List (String × String)
  | .elem _ a _ _ => a

/-- The element's `text` field (`none` models Python `None`). -/
def Xml.text : Xml → Option String
  | .elem _ _ s _ => s

/-- The element's direct children. -/
def Xml.children : Xml → List Xml
  | .elem _ _ _ cs => cs

/-- `element.get(key, default)` on the attribute list. -/
def Xml.attrD (x : Xml) (key dflt : String) : String :=
  match x.attrs.find? (fun p => p.1 == key) with
  | some p => p.2
  | none => dflt

mutual

/-- The element followed by all of its descendants, in document order. -/
def Xml.descOrSelf : Xml → List Xml
  | .elem t a s cs => .elem t a s cs :: Xml.descOrSelfList cs

/-- `descOrSelf` mapped over a sibling list, concatenated in order. -/
def Xml.descOrSelfList : List Xml → List Xml
  | [] => []
  | c :: cs => Xml.descOrSelf c ++ Xml.descOrSelfList cs

end

/-- All proper descendants of `x` (the `.//` axis), in document order. -/
def Xml.descendants (x : Xml) : List Xml := Xml.descOrSelfList x.children

/-- Direct children of `x` carrying the given tag. -/
def childrenTagged (x : Xml) (t : String) : List Xml :=
  x.children.filter (fun c => c.tag == t)

/-- Follow the remaining `/`-separated segments of an ElementTree path
through direct children, starting from every element of `es`. -/
def walkPath (es : List Xml) : List String → List Xml
  | [] => es
  | t :: ts => walkPath (es.flatMap (fun e => childrenTagged e t)) ts

/-- `element.findall('.//t1/t2/...')`: the first segment is matched against
all proper descendants, the remaining segments against direct children. -/
def findAllPath (x : Xml) (path : List String) : List Xml :=
  match path with
  | [] => []
  | t :: ts => walkPath (x.descendants.filter (fun e => e.tag == t)) ts

/-- `element.findtext('.//t1/...', default=d)`: text of the first match
(`""` when the matched element's text is `None`), `d` when no match. -/
def findTextPath (x : Xml) (path : List String) (dflt : String) : String :=
  match (findAllPath x path).head? with
  | some e => e.text.getD ""
  | none => dflt

/-- `element.findtext('tag', default=d)` for a relative one-segment path. -/
def findTextChild (x : Xml) (t dflt : String) : String :=
  match (childrenTagged x t).head? with
  | some e => e.text.getD ""
  | none => dflt

/-! ## Article record parser (`parse_article_details`, lines 253-326) -/

/-- The result rows of `parse_article_details`.  `doi` is `Option String`
because Python stores `doi_elem.text`, which is `None` when the matched
element has no text. -/
structure ArticleRecord where
  pubmed_id : String
  link : String
  title : String
  authors : List String
  source : String
  volume : String
  issue : String
  pages : String
  doi : Option String
  pubdate : String
  abstract : String
  keywords : List String
deriving DecidableEq, Repr

/-- `article.findall(".//Abstract/AbstractText")` (line 262). -/
def absSections (article : Xml) : List Xml :=
  findAllPath article ["Abstract", "AbstractText"]

/-- One abstract part (lines 266-271): `"Label: text"` when the section has a
nonempty `Label` attribute, the bare text otherwise (`None` text read as `""`). -/
def abstractPart (s : Xml) : String :=
  let label := s.attrD "Label" ""
  let text := s.text.getD ""
  if label ≠ "" then label ++ ": " ++ text else text

/-- Abstract assembly (lines 262-274): join the parts with a single space; with
no section at all, fall back to `findtext(..., default="N/A")`. -/
def abstractOf (article : Xml) : String :=
  let secs := absSections article
  if secs.isEmpty then findTextPath article ["Abstract", "AbstractText"] "N/A"
  else String.intercalate " " (secs.foldl (fun parts s => parts ++ [abstractPart s]) [])

/-- Author display name (lines 292-302): `"Lastname Forename"`, else
`"Lastname Initials"`, else the bare last name; `none` when no last name. -/
def authorName (a : Xml) : Option String :=
  let lastname := findTextChild a "LastName" ""
  let forename := findTextChild a "ForeName" ""
  let initials := findTextChild a "Initials" ""
  if lastname ≠ "" && forename ≠ "" then some (lastname ++ " " ++ forename)
  else if lastname ≠ "" && initials ≠ "" then some (lastname ++ " " ++ initials)
  else if lastname ≠ "" then some lastname
  else none

/-- `article.find(".//ELocationID[@EIdType='doi']")` then `.text`, with
`some "N/A"` when no such element exists (lines 281-282). -/
def doiOf (article : Xml) : Option String :=
  match (article.descendants.filter
      (fun e => e.tag == "ELocationID" && e.attrD "EIdType" "" == "doi")).head? with
  | some e => e.text
  | none => some "N/A"

/-- Publication date (lines 284-289): present components joined with `-`. -/
def pubdateOf (article : Xml) : String :=
  let year := findTextPath article ["PubDate", "Year"] ""
  let month := findTextPath article ["PubDate", "Month"] ""
  let day := findTextPath article ["PubDate", "Day"] ""
  let parts := [year, month, day].filter (fun p => p ≠ "")
  if parts.isEmpty then "N/A" else String.intercalate "-" parts

/-- MeSH descriptor collection (lines 304-307): descriptor texts in document
order, skipping `None`/empty texts (Python truthiness of `keyword.text`). -/
def meshKeywords (article : Xml) : List String :=
  (findAllPath article ["MeshHeading", "DescriptorName"]).foldl
    (fun acc k =>
      match k.text with
      | some t => if t ≠ "" then acc ++ [t] else acc
      | none => acc) []

/-- One result row of the `for article in articles` loop (lines 259-324). -/
def parseOneArticle (article : Xml) : ArticleRecord :=
  let pmid := findTextPath article ["PMID"] "N/A"
  { pubmed_id := pmid
    link := "https://pubmed.ncbi.nlm.nih.gov/" ++ pmid ++ "/"
    title := findTextPath article ["ArticleTitle"] "N/A"
    authors := (findAllPath article ["Author"]).foldl
      (fun acc a =>
        match authorName a with
        | some nm => acc ++ [nm]
        | none => acc) []
    source := findTextPath article ["Journal", "Title"] "N/A"
    volume := findTextPath article ["Journal", "JournalIssue", "Volume"] "N/A"
    issue := findTextPath article ["Journal", "JournalIssue", "Issue"] "N/A"
    pages := findTextPath article ["Pagination", "MedlinePgn"] "N/A"
    doi := doiOf article
    pubdate := pubdateOf article
    abstract := abstractOf article
    keywords := (meshKeywords article).take 10 }

/-- `parse_article_details(xml_content)` on an already-parsed document. -/
def parse_article_details (root : Xml) : List ArticleRecord :=
  (findAllPath root ["PubmedArticle"]).map parseOneArticle

/-! ## Count extractor (`extract_count_from_xml`, lines 351-358) -/

/-- Value of a nonempty all-digit character run. -/
def pyIntDigits (l : List Char) : Option Nat :=
  if l.isEmpty || !(l.all Char.isDigit) then none
  else some (l.foldl (fun acc c => acc * 10 + (c.toNat - 48)) 0)

/-- Python `int(s)` on decimal strings: strip whitespace, optional sign,
nonempty digit run (digit-group underscores are not modelled). -/
def pyInt (s : String) : Option Int :=
  match stripChars s.toList with
  | '-' :: rest => (pyIntDigits rest).map (fun n => -(n : Int))
  | '+' :: rest => (pyIntDigits rest).map (fun n => (n : Int))
  | l => (pyIntDigits l).map (fun n => (n : Int))

/-- `extract_count_from_xml(xml_text)` on an already-parsed document:
`tree.find("Count")` looks among direct children; a missing element raises
`ValueError("Count element not found in the XML response")`. -/
def extract_count_from_xml (x : Xml) : Except String Int :=
  match (childrenTagged x "Count").head? with
  | some el =>
    match el.text with
    | none => .error "int() argument is None"
    | some s =>
      match pyInt s with
      | some n => .ok n
      | none => .error ("invalid literal for int(): " ++ s)
  | none => .error "Count element not found in the XML response"

/-! ## Retrying request executor (`make_request_with_retry`, lines 17-30)

The transport is an oracle mapping the attempt index to either a response or
a `requests.exceptions.RequestException`.  The trace records the final
outcome (`none` when the `for` loop runs zero times and the function falls
through returning Python `None`), the number of transport calls, and the
list of sleep durations in order. -/

instance {E R : Type} [DecidableEq E] [DecidableEq R] :
    DecidableEq (Except E R) := fun
  | .ok a, .ok b =>
    if h : a = b then .isTrue (by rw [h])
    else .isFalse (by intro hh; cases hh; exact h rfl)
  | .ok _, .error _ => .isFalse (by intro h; cases h)
  | .error _, .ok _ => .isFalse (by intro h; cases h)
  | .error a, .error b =>
    if h : a = b then .isTrue (by rw [h])
    else .isFalse (by intro hh; cases hh; exact h rfl)

structure RetryTrace (E R : Type) where
  outcome : Option (Except E R)
  calls : Nat
  sleeps : List ℚ
deriving DecidableEq, Repr

/-- The `for i in range(max_retries)` loop, structurally recursive on the
number of remaining iterations; `i` is the current attempt index and `wait`
the current `wait_time`. -/
def retryLoop {E R : Type} (transport : Nat → Except E R) (i : Nat) :
    Nat → ℚ → RetryTrace E R
  | 0, _ => ⟨none, 0, []⟩
  | n + 1, wait =>
    match transport i with
    | .ok r => ⟨some (.ok r), 1, []⟩
    | .error e =>
      if n = 0 then ⟨some (.error e), 1, []⟩
      else
        let t := retryLoop transport (i + 1) n (wait * 2)
        ⟨t.outcome, t.calls + 1, wait :: t.sleeps⟩

/-- `make_request_with_retry(url, params, max_retries=3, wait_time=1.0)`,
abstracted over the transport oracle. -/
def make_request_with_retry {E R : Type} (transport : Nat → Except E R)
    (maxRetries : Nat := 3) (waitTime : ℚ := 1) : RetryTrace E R :=
  retryLoop transport 0 maxRetries waitTime

/-! ## Search orchestrator (`search_pubmed`, lines 32-110)

The two network stages are oracles: `searchStep` models the esearch
request + JSON decoding (returning the id list and total count, or the
message of the exception raised), and `recordStep` models the efetch
request + `ET.fromstring` inside `format_paper_details` (returning the
parsed XML document, or the message of the exception raised). -/

/-- Query composition of lines 52-61: the joined `query_parts`.  A `None`
or empty `journal` is falsy in `if journal:` and contributes no clause. -/
def composeQuery (keywords : List String) (journal : Option String) : String :=
  let queryParts :=
    (if keywords.isEmpty then [] else
      ["(" ++ String.intercalate " OR " keywords ++ ")"]) ++
    (match journal with
     | some j => if j = "" then [] else [j ++ "[Journal]"]
     | none => [])
  String.intercalate " AND " queryParts

/-- Result shape of `search_pubmed`: `total_results` is absent on the
failure paths. -/
structure SearchOutcome where
  success : Bool
  error : Option String
  results : List ArticleRecord
  total_results : Option Int
deriving DecidableEq, Repr

/-- `format_paper_details(pubmed_ids)` (lines 222-251): an empty id list
short-circuits to `[]`; any exception from the fetch or the XML parse is
caught locally and also yields `[]`. -/
def format_paper_details (pubmed_ids : List String)
    (recordStep : Except String Xml) : List ArticleRecord :=
  if pubmed_ids.isEmpty then []
  else
    match recordStep with
    | .ok doc => parse_article_details doc
    | .error _ => []

/-- `search_pubmed(keywords, journal, num_results, sort_by)` (lines 32-110).
`numResults` only parameterizes the esearch request (`retmax`), which the
`searchStep` oracle already accounts for. -/
def search_pubmed (keywords : List String) (journal : Option String)
    (sortBy : String) (searchStep : Except String (List String × Int))
    (recordStep : Except String Xml) : SearchOutcome :=
  let query := composeQuery keywords journal
  if query = "" then
    { success := false
      error := some "No search parameters provided. Please specify keywords or journal."
      results := []
      total_results := none }
  else
    match searchStep with
    | .error e =>
      { success := false, error := some e, results := [], total_results := none }
    | .ok (pmids, count) =>
      let pmids := if sortBy = "date_asc" then pmids.reverse else pmids
      { success := true
        error := none
        results := format_paper_details pmids recordStep
        total_results := some count }

/-! ## PICO orchestrator (`pico_search`, lines 360-461)

Network counts are an oracle `countOf` from the exact query string to the
count (`get_pubmed_count` keys its `counts` dictionary by the literal term).
`requests` records, in order, every query string for which a
`get_pubmed_count` call is issued. -/

/-- `process_element` (lines 387-397): element query of the form
`((t1) OR (t2) OR ...)`, and its count; empty terms short-circuit. -/
def elementQuery (terms : List String) : String :=
  "(" ++ String.intercalate " OR " (terms.map (fun t => "(" ++ t ++ ")")) ++ ")"

/-- Result shape of `pico_search`: `individual` and `combinations` are
association lists `(key, query, count)` in insertion order. -/
structure PicoOutcome where
  success : Bool
  error : Option String
  individual : List (String × String × Nat)
  combinations : List (String × String × Nat)
  requests : List String
deriving DecidableEq, Repr

/-- `pico_search(p_terms, i_terms, c_terms, o_terms)` (lines 360-461). -/
def pico_search (countOf : String → Nat)
    (p_terms i_terms c_terms o_terms : List String) : PicoOutcome :=
  if p_terms.length < 1 || i_terms.length < 1 then
    { success := false
      error := some "At least P (Population) and I (Intervention) terms are required with multiple synonyms recommended."
      individual := [], combinations := [], requests := [] }
  else
    let pQ := elementQuery p_terms
    let iQ := elementQuery i_terms
    let cQ := if c_terms.isEmpty then "" else elementQuery c_terms
    let oQ := if o_terms.isEmpty then "" else elementQuery o_terms
    let piQ := pQ ++ " AND " ++ iQ
    let picQ := pQ ++ " AND " ++ iQ ++ " AND " ++ cQ
    let pioQ := pQ ++ " AND " ++ iQ ++ " AND " ++ oQ
    let picoQ := pQ ++ " AND " ++ iQ ++ " AND " ++ cQ ++ " AND " ++ oQ
    { success := true
      error := none
      individual :=
        [("P", pQ, countOf pQ), ("I", iQ, countOf iQ)] ++
        (if c_terms.isEmpty then [] else [("C", cQ, countOf cQ)]) ++
        (if o_terms.isEmpty then [] else [("O", oQ, countOf oQ)])
      combinations :=
        [("P_AND_I", piQ, countOf piQ)] ++
        (if c_terms.isEmpty then [] else [("P_AND_I_AND_C", picQ, countOf picQ)]) ++
        (if o_terms.isEmpty then [] else [("P_AND_I_AND_O", pioQ, countOf pioQ)]) ++
        (if c_terms.isEmpty || o_terms.isEmpty then []
         else [("P_AND_I_AND_C_AND_O", picoQ, countOf picoQ)])
      requests :=
        [pQ, iQ] ++
        (if c_terms.isEmpty then [] else [cQ]) ++
        (if o_terms.isEmpty then [] else [oQ]) ++
        [piQ] ++
        (if c_terms.isEmpty then [] else [picQ]) ++
        (if o_terms.isEmpty then [] else [pioQ]) ++
        (if c_terms.isEmpty || o_terms.isEmpty then [] else [picoQ]) }

/-! ## Theorems -/

/-- C3: basic query composition.  For non-empty `keywords` the keyword
clause is exactly `(k1 OR k2 OR ... OR kn)` with no trailing `AND`; a
non-empty `journal` contributes `journal[Journal]`; both present are
AND-joined keyword-clause first; with no keywords and an absent journal the
operation fails with the explicit no-parameters error before any network
step is consulted. -/
theorem c3_compose_basic :
    (∀ ks : List String, ks ≠ [] →
      composeQuery ks none = "(" ++ String.intercalate " OR " ks ++ ")")
    ∧ (∀ j : String, j ≠ "" → composeQuery [] (some j) = j ++ "[Journal]")
    ∧ (∀ (ks : List String) (j : String), ks ≠ [] → j ≠ "" →
      composeQuery ks (some j) =
        "(" ++ String.intercalate " OR " ks ++ ")" ++ " AND " ++ (j ++ "[Journal]"))
    ∧ (∀ (sortBy : String) (searchStep : Except String (List String × Int))
        (recordStep : Except String Xml),
      search_pubmed [] none sortBy searchStep recordStep =
        { success := false
          error := some "No search parameters provided. Please specify keywords or journal."
          results := []
          total_results := none }) := by
  refine ⟨?_, ?_, ?_, ?_⟩
  · intro ks hks
    cases ks with
    | nil => exact absurd rfl hks
    | cons a as => rfl
  · intro j hj
    simp only [composeQuery]
    rw [if_neg hj]
    rfl
  · intro ks j hks hj
    cases ks with
    | nil => exact absurd rfl hks
    | cons a as =>
      simp only [composeQuery]
      rw [if_neg hj]
      rfl
  · intro sortBy searchStep recordStep
    rfl

/-- Witness for C3 at concrete inputs. -/
theorem c3_compose_basic_witness :
    composeQuery ["alpha", "beta"] none = "(alpha OR beta)"
    ∧ composeQuery [] (some "Nature") = "Nature[Journal]"
    ∧ composeQuery ["alpha"] (some "Nature") = "(alpha) AND Nature[Journal]"
    ∧ search_pubmed [] none "relevance" (.ok ([], 0)) (.error "net down") =
      { success := false
        error := some "No search parameters provided. Please specify keywords or journal."
        results := []
        total_results := none } :=
  ⟨(c3_compose_basic.1 ["alpha", "beta"] (by decide)).trans (by decide),
   (c3_compose_basic.2.1 "Nature" (by decide)).trans (by decide),
   (c3_compose_basic.2.2.1 ["alpha"] "Nature" (by decide) (by decide)).trans (by decide),
   c3_compose_basic.2.2.2 "relevance" (.ok ([], 0)) (.error "net down")⟩

/-- C4: the retrying executor with `max_retries = 3`, `wait_time = 1.0`.
When every attempt fails it calls the transport exactly 3 times, sleeps
exactly twice for 1 then 2 seconds (the wait doubles, no jitter, no cap) and
re-raises the final failure; a successful attempt returns immediately with
no further calls or sleeps. -/
theorem c4_retry_executor {E R : Type} (transport : Nat → Except E R)
    (e0 e1 e2 : E) (r : R) :
    (transport 0 = .error e0 → transport 1 = .error e1 → transport 2 = .error e2 →
      make_request_with_retry transport 3 1 =
        { outcome := some (.error e2), calls := 3, sleeps := [1, 2] })
    ∧ (transport 0 = .ok r →
      make_request_with_retry transport 3 1 =
        { outcome := some (.ok r), calls := 1, sleeps := [] })
    ∧ (transport 0 = .error e0 → transport 1 = .ok r →
      make_request_with_retry transport 3 1 =
        { outcome := some (.ok r), calls := 2, sleeps := [1] }) := by
  refine ⟨?_, ?_, ?_⟩
  · intro h0 h1 h2
    simp [make_request_with_retry, retryLoop, h0, h1, h2]
  · intro h0
    simp [make_request_with_retry, retryLoop, h0]
  · intro h0 h1
    simp [make_request_with_retry, retryLoop, h0, h1]

/-- Witness for C4 with concrete transports. -/
theorem c4_retry_executor_witness :
    make_request_with_retry (fun _ => (.error "boom" : Except String Nat)) 3 1 =
      { outcome := some (.error "boom"), calls := 3, sleeps := [1, 2] }
    ∧ make_request_with_retry (fun _ => (.ok 7 : Except String Nat)) 3 1 =
      { outcome := some (.ok 7), calls := 1, sleeps := [] }
    ∧ make_request_with_retry
        (fun i => if i = 0 then (.error "boom" : Except String Nat) else .ok 7) 3 1 =
      { outcome := some (.ok 7), calls := 2, sleeps := [1] } :=
  ⟨(c4_retry_executor (fun _ => .error "boom") "boom" "boom" "boom" 0).1 rfl rfl rfl,
   (c4_retry_executor (fun _ => .ok 7) "x" "x" "x" 7).2.1 rfl,
   (c4_retry_executor (fun i => if i = 0 then .error "boom" else .ok 7)
      "boom" "x" "x" 7).2.2 rfl rfl⟩

/-- C5: `extract_count_from_xml` returns the integer parse of the text of
the first direct `Count` child when one exists, and fails with the explicit
"Count element not found" error — never a default of `0` — when no count
element exists. -/
theorem c5_extract_count (x : Xml) :
    (∀ (el : Xml) (s : String) (n : Int),
      (childrenTagged x "Count").head? = some el → el.text = some s →
      pyInt s = some n → extract_count_from_xml x = .ok n)
    ∧ ((childrenTagged x "Count").head? = none →
      extract_count_from_xml x = .error "Count element not found in the XML response")
    ∧ ((childrenTagged x "Count").head? = none →
      ∀ n : Int, extract_count_from_xml x ≠ .ok n) := by
  refine ⟨?_, ?_, ?_⟩
  · intro el s n h1 h2 h3
    simp [extract_count_from_xml, h1, h2, h3]
  · intro h1
    simp [extract_count_from_xml, h1]
  · intro h1 n
    simp [extract_count_from_xml, h1]

/-- Witness for C5: the spec's example document yields `42`, and a document
with no `Count` child yields the explicit error. -/
theorem c5_extract_count_witness :
    extract_count_from_xml
      (.elem "eSearchResult" [] none [.elem "Count" [] (some "42") []]) = .ok 42
    ∧ extract_count_from_xml (.elem "eSearchResult" [] none []) =
      .error "Count element not found in the XML response" :=
  ⟨(c5_extract_count (.elem "eSearchResult" [] none [.elem "Count" [] (some "42") []])).1
      (.elem "Count" [] (some "42") []) "42" 42 rfl rfl rfl,
   (c5_extract_count (.elem "eSearchResult" [] none [])).2.1 rfl⟩

/-- C7: `pico_search` with an empty P or an empty I list fails with the
explicit required-elements error and issues zero count requests. -/
theorem c7_pico_requires_p_and_i (countOf : String → Nat)
    (p_terms i_terms c_terms o_terms : List String)
    (h : p_terms = [] ∨ i_terms = []) :
    pico_search countOf p_terms i_terms c_terms o_terms =
      { success := false
        error := some "At least P (Population) and I (Intervention) terms are required with multiple synonyms recommended."
        individual := [], combinations := [], requests := [] } := by
  rcases h with h | h <;> subst h <;> simp [pico_search]

/-- Witness for C7: empty population terms. -/
theorem c7_pico_requires_p_and_i_witness :
    pico_search (fun _ => 0) [] ["intervention"] [] [] =
      { success := false
        error := some "At least P (Population) and I (Intervention) terms are required with multiple synonyms recommended."
        individual := [], combinations := [], requests := [] } :=
  c7_pico_requires_p_and_i (fun _ => 0) [] ["intervention"] [] [] (Or.inl rfl)

/-- C2: for non-empty P and I the successful `pico_search` result's
`combinations` mapping holds exactly `P_AND_I` (always), `P_AND_I_AND_C`
iff C is non-empty, `P_AND_I_AND_O` iff O is non-empty, and
`P_AND_I_AND_C_AND_O` iff both are, in that insertion order; each
combination query joins the present element queries with `" AND "` in the
fixed order P, I, C, O. -/
theorem c2_pico_combinations (countOf : String → Nat)
    (p_terms i_terms c_terms o_terms : List String)
    (hp : p_terms ≠ []) (hi : i_terms ≠ []) :
    (pico_search countOf p_terms i_terms c_terms o_terms).success = true
    ∧ (pico_search countOf p_terms i_terms c_terms o_terms).combinations =
      [("P_AND_I",
        elementQuery p_terms ++ " AND " ++ elementQuery i_terms,
        countOf (elementQuery p_terms ++ " AND " ++ elementQuery i_terms))]
      ++ (if c_terms = [] then [] else
        [("P_AND_I_AND_C",
          elementQuery p_terms ++ " AND " ++ elementQuery i_terms ++ " AND " ++
            elementQuery c_terms,
          countOf (elementQuery p_terms ++ " AND " ++ elementQuery i_terms ++ " AND " ++
            elementQuery c_terms))])
      ++ (if o_terms = [] then [] else
        [("P_AND_I_AND_O",
          elementQuery p_terms ++ " AND " ++ elementQuery i_terms ++ " AND " ++
            elementQuery o_terms,
          countOf (elementQuery p_terms ++ " AND " ++ elementQuery i_terms ++ " AND " ++
            elementQuery o_terms))])
      ++ (if c_terms = [] ∨ o_terms = [] then [] else
        [("P_AND_I_AND_C_AND_O",
          elementQuery p_terms ++ " AND " ++ elementQuery i_terms ++ " AND " ++
            elementQuery c_terms ++ " AND " ++ elementQuery o_terms,
          countOf (elementQuery p_terms ++ " AND " ++ elementQuery i_terms ++ " AND " ++
            elementQuery c_terms ++ " AND " ++ elementQuery o_terms))])
    ∧ (pico_search countOf p_terms i_terms c_terms o_terms).combinations.map
        (fun x => x.1) =
      ["P_AND_I"]
      ++ (if c_terms = [] then [] else ["P_AND_I_AND_C"])
      ++ (if o_terms = [] then [] else ["P_AND_I_AND_O"])
      ++ (if c_terms = [] ∨ o_terms = [] then [] else ["P_AND_I_AND_C_AND_O"]) := by
  have hc : (decide (p_terms.length < 1) || decide (i_terms.length < 1)) = false := by
    simp [Nat.lt_one_iff, List.length_eq_zero, hp, hi]
  refine ⟨?_, ?_, ?_⟩ <;>
    by_cases hcc : c_terms = [] <;> by_cases hoo : o_terms = [] <;>
      simp [pico_search, hc, hcc, hoo, hp, hi]

/-- Witness for C2 at the spec's motivating case: P, I, O non-empty, C
empty — exactly `P_AND_I` and `P_AND_I_AND_O`, nothing else. -/
theorem c2_pico_combinations_witness :
    (pico_search (fun _ => 3) ["pop"] ["int"] [] ["out"]).combinations.map
        (fun x => x.1) = ["P_AND_I", "P_AND_I_AND_O"]
    ∧ (pico_search (fun _ => 3) ["pop"] ["int"] [] ["out"]).combinations =
      [("P_AND_I", "((pop)) AND ((int))", 3),
       ("P_AND_I_AND_O", "((pop)) AND ((int)) AND ((out))", 3)] :=
  ⟨((c2_pico_combinations (fun _ => 3) ["pop"] ["int"] [] ["out"]
      (by decide) (by decide)).2.2).trans (by decide),
   ((c2_pico_combinations (fun _ => 3) ["pop"] ["int"] [] ["out"]
      (by decide) (by decide)).2.1).trans (by decide)⟩

/-- Generic fact used to turn the Python append loops into `List.map`. -/
theorem foldl_push {α β : Type} (f : α → β) :
    ∀ (l : List α) (acc : List β),
      l.foldl (fun ps s => ps ++ [f s]) acc = acc ++ l.map f := by
  intro l
  induction l with
  | nil => simp
  | cons a as ih => intro acc; simp [ih]

/-- C10: every record produced by the article parser links to the fixed
prefix followed by its own `pubmed_id` and a trailing slash; when the
article has no `PMID` descendant the id is the sentinel `N/A` and the link
is the non-resolvable `https://pubmed.ncbi.nlm.nih.gov/N/A/`. -/
theorem c10_link_from_pmid (root : Xml) :
    (∀ r ∈ parse_article_details root,
      r.link = "https://pubmed.ncbi.nlm.nih.gov/" ++ r.pubmed_id ++ "/")
    ∧ (∀ a ∈ findAllPath root ["PubmedArticle"],
      findAllPath a ["PMID"] = [] →
        (parseOneArticle a).pubmed_id = "N/A" ∧
        (parseOneArticle a).link = "https://pubmed.ncbi.nlm.nih.gov/" ++ "N/A" ++ "/") := by
  constructor
  · intro r hr
    simp only [parse_article_details, List.mem_map] at hr
    obtain ⟨a, -, rfl⟩ := hr
    rfl
  · intro a _ hpmid
    have hid : (parseOneArticle a).pubmed_id = "N/A" := by
      simp [parseOneArticle, findTextPath, hpmid]
    refine ⟨hid, ?_⟩
    have hlink : (parseOneArticle a).link =
        "https://pubmed.ncbi.nlm.nih.gov/" ++ (parseOneArticle a).pubmed_id ++ "/" := rfl
    rw [hlink, hid]

/-- Witness for C10: one article with no `PMID` element anywhere. -/
theorem c10_link_from_pmid_witness :
    (parseOneArticle (.elem "PubmedArticle" [] none [])).pubmed_id = "N/A"
    ∧ (parseOneArticle (.elem "PubmedArticle" [] none [])).link =
      "https://pubmed.ncbi.nlm.nih.gov/N/A/" := by
  have h := (c10_link_from_pmid
      (.elem "PubmedArticleSet" [] none [.elem "PubmedArticle" [] none []])).2
    (.elem "PubmedArticle" [] none [])
    (by
      simp [show findAllPath
          (Xml.elem "PubmedArticleSet" [] none [Xml.elem "PubmedArticle" [] none []])
          ["PubmedArticle"] = [Xml.elem "PubmedArticle" [] none []] from rfl])
    rfl
  exact ⟨h.1, h.2.trans (by decide)⟩

/-- C8: abstract assembly.  With no abstract section the abstract is the
`N/A` sentinel; with sections present the abstract is the sections' parts
joined by a single space, each labeled section contributing
`"Label: text"`; a single unlabeled section contributes its text verbatim. -/
theorem c8_abstract_assembly (article : Xml) :
    (absSections article = [] → abstractOf article = "N/A")
    ∧ (absSections article ≠ [] →
      abstractOf article =
        String.intercalate " " ((absSections article).map abstractPart))
    ∧ (∀ s : Xml, absSections article = [s] → s.attrD "Label" "" = "" →
      abstractOf article = s.text.getD "") := by
  refine ⟨?_, ?_, ?_⟩
  · intro h
    simp [abstractOf, h, findTextPath, absSections] at h ⊢
    simp [abstractOf, findTextPath, h]
  · intro h
    rw [abstractOf, foldl_push]
    simp [List.isEmpty_iff, h]
  · intro s hs hlabel
    rw [abstractOf, foldl_push]
    simp [List.isEmpty_iff, hs, abstractPart, hlabel]
    rfl

/-- Witness for C8: the spec's two-labeled-section document, a
single-unlabeled-section document, and a document with no abstract. -/
theorem c8_abstract_assembly_witness :
    abstractOf (.elem "PubmedArticle" [] none
      [.elem "Article" [] none
        [.elem "Abstract" [] none
          [.elem "AbstractText" [("Label", "BACKGROUND")] (some "Basis.") [],
           .elem "AbstractText" [("Label", "METHODS")] (some "Trial.") []]]]) =
      "BACKGROUND: Basis. METHODS: Trial."
    ∧ abstractOf (.elem "PubmedArticle" [] none
      [.elem "Article" [] none
        [.elem "Abstract" [] none
          [.elem "AbstractText" [] (some "Plain text.") []]]]) = "Plain text."
    ∧ abstractOf (.elem "PubmedArticle" [] none []) = "N/A" := by
  refine ⟨?_, ?_, ?_⟩
  · exact ((c8_abstract_assembly (.elem "PubmedArticle" [] none
      [.elem "Article" [] none
        [.elem "Abstract" [] none
          [.elem "AbstractText" [("Label", "BACKGROUND")] (some "Basis.") [],
           .elem "AbstractText" [("Label", "METHODS")] (some "Trial.") []]]])).2.1
      (by
        simp [show absSections (Xml.elem "PubmedArticle" [] none
          [Xml.elem "Article" [] none
            [Xml.elem "Abstract" [] none
              [Xml.elem "AbstractText" [("Label", "BACKGROUND")] (some "Basis.") [],
               Xml.elem "AbstractText" [("Label", "METHODS")] (some "Trial.") []]]]) =
          [Xml.elem "AbstractText" [("Label", "BACKGROUND")] (some "Basis.") [],
           Xml.elem "AbstractText" [("Label", "METHODS")] (some "Trial.") []] from rfl])).trans
      (by decide)
  · exact ((c8_abstract_assembly (.elem "PubmedArticle" [] none
      [.elem "Article" [] none
        [.elem "Abstract" [] none
          [.elem "AbstractText" [] (some "Plain text.") []]]])).2.2
      (.elem "AbstractText" [] (some "Plain text.") []) rfl rfl).trans (by decide)
  · exact (c8_abstract_assembly (.elem "PubmedArticle" [] none [])).1 rfl

/-- C1 counterexample: a failing record-fetch/parse stage does NOT produce
the failure shape.  With a successful identifier fetch (one id, total 5) and
a record stage that raises, `search_pubmed` returns `success := true` with
an empty result list — the exception is swallowed inside
`format_paper_details` (lines 249-251), so the caller cannot distinguish
this failure from a zero-result success. -/
theorem c1_counterexample :
    search_pubmed ["cancer"] none "relevance" (.ok (["12345"], 5))
        (.error "connection reset") =
      { success := true, error := none, results := [], total_results := some 5 }
    ∧ search_pubmed ["cancer"] none "relevance" (.ok ([], 0)) (.error "unused") =
      { success := true, error := none, results := [], total_results := some 0 } :=
  ⟨rfl, rfl⟩

/-- C1 (amended): exceptions in the identifier-fetch stage are caught at
top level and become `{success := false, error, results := []}` with no
partial results; but an exception in the record-fetch/article-parse stage is
caught inside `format_paper_details` and becomes an empty list, so
`search_pubmed` then reports `success := true` with `results := []`,
indistinguishable from a zero-result success. -/
theorem c1_error_conversion (keywords : List String) (journal : Option String)
    (sortBy : String) (e : String) :
    (∀ recordStep : Except String Xml, composeQuery keywords journal ≠ "" →
      search_pubmed keywords journal sortBy (.error e) recordStep =
        { success := false, error := some e, results := [], total_results := none })
    ∧ (∀ (pmids : List String) (count : Int),
      composeQuery keywords journal ≠ "" →
      search_pubmed keywords journal sortBy (.ok (pmids, count)) (.error e) =
        { success := true, error := none, results := [],
          total_results := some count }) := by
  constructor
  · intro recordStep hq
    simp [search_pubmed, hq]
  · intro pmids count hq
    simp only [search_pubmed, if_neg hq]
    have hfmt : ∀ ids : List String,
        format_paper_details ids (.error e) = [] := by
      intro ids
      cases ids <;> simp [format_paper_details]
    simp [hfmt]

/-- Witness for C1's amended statement. -/
theorem c1_error_conversion_witness :
    search_pubmed ["cancer"] none "relevance" (.error "HTTP 500") (.ok (.elem "x" [] none [])) =
      { success := false, error := some "HTTP 500", results := [], total_results := none }
    ∧ search_pubmed ["cancer"] none "relevance" (.ok (["12345"], 5)) (.error "bad xml") =
      { success := true, error := none, results := [], total_results := some 5 } :=
  ⟨(c1_error_conversion ["cancer"] none "relevance" "HTTP 500").1
      (.ok (.elem "x" [] none [])) (by decide),
   (c1_error_conversion ["cancer"] none "relevance" "bad xml").2
      ["12345"] 5 (by decide)⟩

/-- C6: the term-corpus parser.  On the spec's example the result is exactly
`["Term One", "Term Two"]` (a `^\d+:` line opens a new entry; other lines
are appended to the current entry; each flushed entry keeps the trimmed
remainder of its first line); accumulated entries that do not match the
extraction pattern — including ones opened without a `": "` separator or
preamble text before the first delimiter — are silently dropped rather than
failing. -/
theorem c6_term_corpus_scan :
    parse_mesh_text_response "1: Term One\nextra line\n2: Term Two\n" =
      ["Term One", "Term Two"]
    ∧ parse_mesh_text_response "1:Term One\n2: Term Two\n" = ["Term Two"]
    ∧ parse_mesh_text_response "preamble\n1: Term One\n" = ["Term One"]
    ∧ parse_mesh_text_response "1:  spaced term  \n" = ["spaced term"] := by
  refine ⟨by decide, by decide, by decide, by decide⟩

/-! ### Helper lemmas for round-trip stability (C9) -/

theorem isEmpty_false_of_ne_nil {α : Type} {l : List α} (h : l ≠ []) :
    l.isEmpty = false := by
  cases l with
  | nil => exact absurd rfl h
  | cons a as => rfl

theorem splitLinesAux_append (b : List Char) :
    ∀ (a acc : List Char), '\n' ∉ a →
      splitLinesAux acc (a ++ '\n' :: b) = (acc.reverse ++ a) :: splitLinesAux [] b := by
  intro a
  induction a with
  | nil =>
    intro acc _
    simp [splitLinesAux]
  | cons c a' ih =>
    intro acc h
    rw [List.mem_cons, not_or] at h
    obtain ⟨hc, ha⟩ := h
    have hc' : ¬(c = '\n') := fun hh => hc hh.symm
    show splitLinesAux acc (c :: (a' ++ '\n' :: b)) =
      (acc.reverse ++ c :: a') :: splitLinesAux [] b
    rw [splitLinesAux, if_neg hc', ih (c :: acc) ha]
    simp

theorem splitLines_append (a b : List Char) (h : '\n' ∉ a) :
    splitLines (a ++ '\n' :: b) = a :: splitLines b := by
  unfold splitLines
  rw [splitLinesAux_append b a [] h]
  simp

theorem digitsRevFuel_isDigit :
    ∀ (fuel n : Nat), ∀ c ∈ digitsRevFuel fuel n, c.isDigit := by
  intro fuel
  induction fuel with
  | zero =>
    intro n c hc
    simp [digitsRevFuel] at hc
  | succ f ih =>
    intro n c hc
    cases n with
    | zero => simp [digitsRevFuel] at hc
    | succ m =>
      simp only [digitsRevFuel, List.mem_cons] at hc
      rcases hc with rfl | hc
      · have h10 : (m + 1) % 10 < 10 := Nat.mod_lt _ (by omega)
        set r := (m + 1) % 10 with hr
        interval_cases r <;> decide
      · exact ih _ _ hc

theorem natDigits_isDigit (k : Nat) : ∀ c ∈ natDigits k, c.isDigit := by
  intro c hc
  unfold natDigits at hc
  split at hc
  · simp at hc
    subst hc
    decide
  · rw [digitsRev, List.mem_reverse] at hc
    exact digitsRevFuel_isDigit _ _ _ hc

theorem natDigits_ne_nil (k : Nat) : natDigits k ≠ [] := by
  unfold natDigits
  split
  · simp
  · next h =>
    cases k with
    | zero => exact absurd rfl h
    | succ m =>
      show ((digitsRev (m + 1)).reverse) ≠ []
      rw [digitsRev]
      simp [digitsRevFuel]

theorem natDigits_isEmpty (k : Nat) : (natDigits k).isEmpty = false :=
  isEmpty_false_of_ne_nil (natDigits_ne_nil k)

theorem isDigit_ne_newline {c : Char} (h : c.isDigit) : c ≠ '\n' := by
  intro hh
  subst hh
  exact absurd h (by decide)

theorem takeWhile_digits_line (k : Nat) (rest : List Char) :
    (natDigits k ++ ':' :: rest).takeWhile Char.isDigit = natDigits k := by
  rw [List.takeWhile_append_of_pos (natDigits_isDigit k),
    List.takeWhile_cons_of_neg (by decide)]
  simp

theorem dropWhile_digits_line (k : Nat) (rest : List Char) :
    (natDigits k ++ ':' :: rest).dropWhile Char.isDigit = ':' :: rest := by
  rw [List.dropWhile_append_of_pos (natDigits_isDigit k),
    List.dropWhile_cons_of_neg (by decide)]

theorem isDelimLine_render (k : Nat) (rest : List Char) :
    isDelimLine (natDigits k ++ ':' :: rest) = true := by
  unfold isDelimLine
  rw [takeWhile_digits_line, dropWhile_digits_line, natDigits_isEmpty]
  rfl

theorem takeWhile_no_newline {t : List Char} (hnl : '\n' ∉ t) :
    t.takeWhile (fun c => decide (c ≠ '\n')) = t :=
  List.takeWhile_eq_self_iff.mpr fun x hx => by
    simp only [decide_eq_true_eq]
    intro hh
    exact hnl (hh ▸ hx)

theorem extractEntry_render (k : Nat) (t : List Char)
    (ht : t ≠ []) (hstrip : stripChars t = t) (hnl : '\n' ∉ t) :
    extractEntry (natDigits k ++ ':' :: ' ' :: t) = some t := by
  unfold extractEntry
  rw [takeWhile_digits_line, dropWhile_digits_line, natDigits_isEmpty]
  simp only [Bool.false_eq_true, if_false]
  show (if (t.takeWhile (fun c => decide (c ≠ '\n'))).isEmpty = true then none
    else some (stripChars (t.takeWhile (fun c => decide (c ≠ '\n'))))) = some t
  rw [takeWhile_no_newline hnl, isEmpty_false_of_ne_nil ht]
  simp [hstrip]

theorem extractEntry_render_newline (k : Nat) (t : List Char)
    (ht : t ≠ []) (hstrip : stripChars t = t) (hnl : '\n' ∉ t) :
    extractEntry (natDigits k ++ ':' :: ' ' :: (t ++ ['\n'])) = some t := by
  unfold extractEntry
  rw [takeWhile_digits_line, dropWhile_digits_line, natDigits_isEmpty]
  simp only [Bool.false_eq_true, if_false]
  show (if ((t ++ ['\n']).takeWhile (fun c => decide (c ≠ '\n'))).isEmpty = true then none
    else some (stripChars ((t ++ ['\n']).takeWhile (fun c => decide (c ≠ '\n'))))) = some t
  have htw : (t ++ ['\n']).takeWhile (fun c => decide (c ≠ '\n')) = t := by
    rw [List.takeWhile_append_of_pos
        (fun x hx => by
          simp only [decide_eq_true_eq]
          intro hh
          exact hnl (hh ▸ hx)),
      List.takeWhile_cons_of_neg (by decide)]
    simp
  rw [htw, isEmpty_false_of_ne_nil ht]
  simp [hstrip]

theorem flushEntry_render (entries : List (List Char)) (k : Nat) (t : List Char)
    (ht : GoodTerm t) :
    flushEntry entries (natDigits k ++ ':' :: ' ' :: t) = entries ++ [t] := by
  obtain ⟨hne, hstrip, hnl⟩ := ht
  unfold flushEntry
  rw [isEmpty_false_of_ne_nil (by simp : natDigits k ++ ':' :: ' ' :: t ≠ []),
    extractEntry_render k t hne hstrip hnl]
  rfl

theorem flushEntry_render_newline (entries : List (List Char)) (k : Nat)
    (t : List Char) (ht : GoodTerm t) :
    flushEntry entries (natDigits k ++ ':' :: ' ' :: (t ++ ['\n'])) = entries ++ [t] := by
  obtain ⟨hne, hstrip, hnl⟩ := ht
  unfold flushEntry
  rw [isEmpty_false_of_ne_nil
      (by simp : natDigits k ++ ':' :: ' ' :: (t ++ ['\n']) ≠ []),
    extractEntry_render_newline k t hne hstrip hnl]
  rfl

theorem scanLines_render :
    ∀ (ts : List (List Char)), (∀ t ∈ ts, GoodTerm t) →
      ∀ (k k0 : Nat) (t0 : List Char) (entries : List (List Char)), GoodTerm t0 →
        scanLines entries (natDigits k0 ++ ':' :: ' ' :: t0)
            (linesFrom k ts ++ [[]]) =
          entries ++ t0 :: ts := by
  intro ts
  induction ts with
  | nil =>
    intro _ k k0 t0 entries h0
    show scanLines entries (natDigits k0 ++ ':' :: ' ' :: t0) [[]] = entries ++ [t0]
    rw [scanLines, if_neg (by decide)]
    show flushEntry entries ((natDigits k0 ++ ':' :: ' ' :: t0) ++ ['\n']) =
      entries ++ [t0]
    have harr : (natDigits k0 ++ ':' :: ' ' :: t0) ++ ['\n'] =
        natDigits k0 ++ ':' :: ' ' :: (t0 ++ ['\n']) := by simp
    rw [harr, flushEntry_render_newline entries k0 t0 h0]
  | cons t rest ih =>
    intro hts k k0 t0 entries h0
    show scanLines entries (natDigits k0 ++ ':' :: ' ' :: t0)
        ((natDigits k ++ ':' :: ' ' :: t) :: (linesFrom (k + 1) rest ++ [[]])) =
      entries ++ t0 :: t :: rest
    rw [scanLines, if_pos (isDelimLine_render k (' ' :: t)),
      flushEntry_render entries k0 t0 h0,
      ih (fun x hx => hts x (List.mem_cons_of_mem t hx)) (k + 1) k t
        (entries ++ [t0]) (hts t (List.mem_cons_self t rest))]
    simp

theorem splitLines_renderFrom :
    ∀ (ts : List (List Char)) (k : Nat), (∀ t ∈ ts, '\n' ∉ t) →
      splitLines (renderFrom k ts) = linesFrom k ts ++ [[]] := by
  intro ts
  induction ts with
  | nil => intro k _; rfl
  | cons t rest ih =>
    intro k h
    have hnl : '\n' ∉ natDigits k ++ ':' :: ' ' :: t := by
      intro hmem
      rw [List.mem_append] at hmem
      rcases hmem with hmem | hmem
      · exact isDigit_ne_newline (natDigits_isDigit k _ hmem) rfl
      · simp only [List.mem_cons] at hmem
        rcases hmem with h1 | h1 | hmem
        · exact absurd h1 (by decide)
        · exact absurd h1 (by decide)
        · exact h t (List.mem_cons_self t rest) hmem
    have ha : renderFrom k (t :: rest) =
        (natDigits k ++ ':' :: ' ' :: t) ++ '\n' :: renderFrom (k + 1) rest := by
      rw [renderFrom]
    rw [ha, splitLines_append _ _ hnl,
      ih (k + 1) (fun x hx => h x (List.mem_cons_of_mem t hx))]
    rfl

theorem parseMeshCore_render (ts : List (List Char))
    (h : ∀ t ∈ ts, GoodTerm t) :
    parseMeshCore (renderCore ts) = ts := by
  cases ts with
  | nil => decide
  | cons t rest =>
    unfold parseMeshCore renderCore
    rw [splitLines_renderFrom (t :: rest) 1 (fun x hx => (h x hx).2.2)]
    show scanLines [] []
        ((natDigits 1 ++ ':' :: ' ' :: t) :: (linesFrom 2 rest ++ [[]])) = t :: rest
    rw [scanLines, if_pos (isDelimLine_render 1 (' ' :: t))]
    show scanLines (flushEntry [] []) (natDigits 1 ++ ':' :: ' ' :: t)
        (linesFrom 2 rest ++ [[]]) = t :: rest
    have hf : flushEntry [] ([] : List Char) = [] := rfl
    rw [hf, scanLines_render rest
      (fun x hx => h x (List.mem_cons_of_mem t hx)) 2 1 t []
      (h t (List.mem_cons_self t rest))]
    rfl

theorem stripChars_eq_rdropWhile (l : List Char) :
    stripChars l = List.rdropWhile isPySpace (l.dropWhile isPySpace) := rfl

theorem dropWhile_eq_self_of_head {p : Char → Bool} {x : List Char}
    (h : ∀ c, x.head? = some c → p c = false) : x.dropWhile p = x := by
  cases x with
  | nil => rfl
  | cons c cs =>
    rw [List.dropWhile_cons_of_neg]
    simp [h c rfl]

theorem head_dropWhile_false {p : Char → Bool} :
    ∀ {l : List Char} {c : Char}, (l.dropWhile p).head? = some c → p c = false := by
  intro l
  induction l with
  | nil =>
    intro c h
    simp [List.dropWhile] at h
  | cons a as ih =>
    intro c h
    by_cases hp : p a
    · rw [List.dropWhile_cons_of_pos hp] at h
      exact ih h
    · rw [List.dropWhile_cons_of_neg hp] at h
      simp only [List.head?_cons, Option.some_inj] at h
      subst h
      simpa using hp

theorem stripDropAux (l : List Char) :
    (List.rdropWhile isPySpace (l.dropWhile isPySpace)).dropWhile isPySpace =
      List.rdropWhile isPySpace (l.dropWhile isPySpace) := by
  apply dropWhile_eq_self_of_head
  intro c hc
  obtain ⟨suf, hsuf⟩ := List.rdropWhile_prefix isPySpace (l.dropWhile isPySpace)
  cases hrd : List.rdropWhile isPySpace (l.dropWhile isPySpace) with
  | nil =>
    rw [hrd] at hc
    simp at hc
  | cons a rs =>
    rw [hrd] at hc
    simp only [List.head?_cons, Option.some_inj] at hc
    subst hc
    have hd : (l.dropWhile isPySpace).head? = some a := by
      rw [← hsuf, hrd]
      rfl
    exact head_dropWhile_false hd

theorem stripChars_idem (l : List Char) :
    stripChars (stripChars l) = stripChars l := by
  rw [stripChars_eq_rdropWhile, stripChars_eq_rdropWhile, stripDropAux,
    List.rdropWhile_idempotent]

theorem mem_stripChars {c : Char} {l : List Char} (h : c ∈ stripChars l) :
    c ∈ l := by
  rw [stripChars_eq_rdropWhile] at h
  exact (List.dropWhile_suffix isPySpace).subset
    ((List.rdropWhile_prefix isPySpace (l.dropWhile isPySpace)).subset h)

theorem extractEntry_good {l t : List Char} (h : extractEntry l = some t) :
    stripChars t = t ∧ '\n' ∉ t := by
  unfold extractEntry at h
  split at h
  · exact absurd h (by simp)
  · split at h
    · next rest =>
      split at h
      · exact absurd h (by simp)
      · rw [Option.some_inj] at h
        subst h
        constructor
        · exact stripChars_idem _
        · intro hmem
          have := List.mem_takeWhile_imp (mem_stripChars hmem)
          simp at this
    · exact absurd h (by simp)

theorem mem_flushEntry {entries : List (List Char)} {cur t : List Char}
    (h : t ∈ flushEntry entries cur) :
    t ∈ entries ∨ extractEntry cur = some t := by
  unfold flushEntry at h
  split at h
  · exact Or.inl h
  · split at h
    · next x hx =>
      rw [List.mem_append] at h
      rcases h with h | h
      · exact Or.inl h
      · rw [List.mem_singleton] at h
        subst h
        exact Or.inr hx
    · exact Or.inl h

theorem mem_scanLines :
    ∀ (lines entries : List (List Char)) (cur t : List Char),
      t ∈ scanLines entries cur lines →
      t ∈ entries ∨ ∃ c, extractEntry c = some t := by
  intro lines
  induction lines with
  | nil =>
    intro entries cur t h
    rw [scanLines] at h
    rcases mem_flushEntry h with h | h
    exacts [Or.inl h, Or.inr ⟨_, h⟩]
  | cons line rest ih =>
    intro entries cur t h
    rw [scanLines] at h
    split at h
    · rcases ih _ _ _ h with h | h
      · rcases mem_flushEntry h with h | h
        exacts [Or.inl h, Or.inr ⟨_, h⟩]
      · exact Or.inr h
    · exact ih _ _ _ h

theorem parseMeshCore_good (l : List Char) :
    ∀ t ∈ parseMeshCore l, stripChars t = t ∧ '\n' ∉ t := by
  intro t ht
  rcases mem_scanLines _ _ _ _ ht with h | ⟨c, hc⟩
  · simp at h
  · exact extractEntry_good hc

/-- C9: round-trip stability of the term-corpus parser.  For any input whose
parse yields only non-empty entries (the well-formed numbered-entry case —
parsed entries are always trimmed and newline-free, but an all-whitespace
remainder would parse to an empty entry and be dropped on re-parse),
re-rendering the output as `"1: e1\n2: e2\n..."` and parsing again yields
the same list. -/
theorem c9_roundtrip (w : String)
    (h : ∀ t ∈ parse_mesh_text_response w, t ≠ "") :
    parse_mesh_text_response (renderTerms (parse_mesh_text_response w)) =
      parse_mesh_text_response w := by
  unfold parse_mesh_text_response renderTerms
  set ts := parseMeshCore w.toList with hts
  have hmm : (ts.map fun l => String.mk l).map String.toList = ts := by
    rw [List.map_map]
    have hcomp : (String.toList ∘ fun l => String.mk l) = id := funext fun l => rfl
    rw [hcomp, List.map_id]
  rw [hmm]
  have htl : (String.mk (renderCore ts)).toList = renderCore ts := rfl
  rw [htl, parseMeshCore_render ts ?good]
  case good =>
    intro t ht
    obtain ⟨hstrip, hnl⟩ := parseMeshCore_good w.toList t ht
    refine ⟨?_, hstrip, hnl⟩
    intro ht0
    exact h (String.mk t) (List.mem_map_of_mem _ ht) (by rw [ht0])

/-- Witness for C9 on a concrete two-entry corpus. -/
theorem c9_roundtrip_witness :
    parse_mesh_text_response
        (renderTerms (parse_mesh_text_response "1: Aspirin\nnote\n2: Heparin\n")) =
      parse_mesh_text_response "1: Aspirin\nnote\n2: Heparin\n" :=
  c9_roundtrip "1: Aspirin\nnote\n2: Heparin\n" (by decide)

end PubmedMCP
